import Mathlib

/-!
# gtipc server (`src/server/server.c`): a shallow embedding

The server of the gtipc compute service is embedded as pure Lean functions
over explicit state.

Conventions.

* A C function that may not come back to its caller returns an `Outcome`:
  `ret` (it returned), `exited` (it called `exit`), `blocked` (it waits on a
  mutex or a condition variable that no one has released yet), `fault` (it
  followed `NULL` or a freed or unallocated list node, or indexed outside
  the segment), `nofuel` (a loop was cut by the fuel
  of the model).
* Answers of the operating system (descriptors, sizes, addresses) and the
  indeterminate contents of memory that the code reads before writing it
  (a `malloc` block, an uninitialised local) are explicit arguments. So is
  the content of a freed block when the code reads a value from it only to
  print it (`freed_arg` of `compute_service`); a freed or unallocated list
  node whose fields the code compares and follows is a `fault`.
* Calls whose effect lives outside the process (`mq_send`, `mq_close`,
  `munmap`, `close`, `pthread_create`, `fprintf`, `printf`) are appended to
  a trace of `Event`s, in program order.
* `int` fields are `Int`; the arithmetic of the service handlers wraps to the
  width `w` of the argument type (two's complement).
-/

namespace Gtipc

/-! ## Types of the absent headers (`gtipc/types.h`, `gtipc/messages.h`) -/

/-- Modelled from the spec: the service selector enum of `gtipc/types.h`
(absent). `GTIPC_ADD` and `GTIPC_MUL` are the two labels the `switch` of
`compute_service` names; `other code` is any selector that matches neither. -/
inductive gtipc_service where
  | GTIPC_ADD
  | GTIPC_MUL
  | other (code : Nat)
  deriving DecidableEq

/-- Modelled from the spec: `gtipc_arg` of `gtipc/types.h` (absent), with the
three fields `add` and `mul` use. -/
structure gtipc_arg where
  x : Int
  y : Int
  res : Int
  deriving DecidableEq

/-- Modelled from the spec: `gtipc_shared_entry` of `gtipc/types.h` (absent),
with the fields `request_complete` uses. `mutex = true` means that the
mutex is held. -/
structure gtipc_shared_entry where
  arg : gtipc_arg
  done : Int
  mutex : Bool
  deriving DecidableEq

/-- Modelled from the spec: `gtipc_request` of `gtipc/messages.h` (absent),
with the fields `compute_service` and `client_handler` read. -/
structure gtipc_request where
  request_id : Int
  service : gtipc_service
  entry_idx : Nat
  pid : Int
  arg : gtipc_arg
  deriving DecidableEq

/-- Modelled from the spec: `gtipc_response` of `gtipc/messages.h` (absent):
the request id echoed and the entry index. -/
structure gtipc_response where
  request_id : Int
  entry_idx : Nat
  deriving DecidableEq

/-- Modelled from the spec: the registry commands of `gtipc/messages.h`
(absent), as `registry_handler` and `unregister_client` name them. -/
inductive gtipc_registry_cmd where
  | GTIPC_CLIENT_REGISTER
  | GTIPC_CLIENT_UNREGISTER
  | GTIPC_CLIENT_CLOSE
  | GTIPC_SERVER_CLOSE
  deriving DecidableEq

/-- Modelled from the spec: `gtipc_registry` of `gtipc/messages.h` (absent),
with the fields `register_client` and `open_shm_object` read. Names are
lists of character codes. -/
structure gtipc_registry where
  cmd : gtipc_registry_cmd
  pid : Int
  send_queue_name : List Nat
  recv_queue_name : List Nat
  shm_name : List Nat
  deriving DecidableEq

/-! ## Types of `server.h` -/

/-- The `client` record of `server.h`. -/
structure client where
  pid : Int
  send_queue : Int
  recv_queue : Int
  shm_addr : Nat
  shm_size : Nat
  shm_name : List Nat
  client_thread : Nat
  stop_client_thread : Int
  deriving DecidableEq

/-- A pointer to a list node: `none` is `NULL`. -/
abbrev Ptr := Option Nat

/-- The `client_list` node of `server.h`. -/
structure client_list where
  client : client
  tail : Ptr
  next : Ptr
  prev : Ptr
  deriving DecidableEq

/-- The `client_thread_arg` of `server.h`; `client` is the address of the
list node whose `client` field the worker was given. -/
structure client_thread_arg where
  req : gtipc_request
  client : Nat
  deriving DecidableEq

/-- The counter of `struct __service_threads`: `curr`. Its mutex and
condition variable are the blocking of `spawn_compute_thread` and of
`resize_shm_object`. -/
structure service_threads where
  curr : Int
  deriving DecidableEq

/-- The `struct timespec` of `time.h`. -/
structure timespec where
  tv_sec : Int
  tv_nsec : Int
  deriving DecidableEq

/-! ## Outcomes and events -/

/-- How a call of a C function ends. -/
inductive Outcome (σ : Type) where
  | ret (s : σ)
  | exited (code : Int)
  | blocked
  | fault
  | nofuel
  deriving DecidableEq

/-- Sequencing of calls: the first call that does not return ends the
sequence. -/
def Outcome.bind {α β : Type} (o : Outcome α) (f : α → Outcome β) : Outcome β :=
  match o with
  | Outcome.ret a => f a
  | Outcome.exited c => Outcome.exited c
  | Outcome.blocked => Outcome.blocked
  | Outcome.fault => Outcome.fault
  | Outcome.nofuel => Outcome.nofuel

/-- The diagnostics the server prints and goes on after; what it prints
right before `exit` is not recorded. -/
inductive Diag where
  | invalid_service (pid : Int)
  | request_done (pid : Int) (request_id : Int)
  | poison_failed (pid : Int)
  deriving DecidableEq

/-- The calls with an effect outside the process, as the trace records them. -/
inductive Event where
  | mq_send_response (queue : Int) (resp : gtipc_response)
  | mq_send_registry (queue : Int) (cmd : gtipc_registry_cmd)
  | mq_close (queue : Int)
  | munmap (addr : Nat) (size : Nat)
  | close (fd : Int)
  | pthread_create_client_handler (node : Nat)
  | print (d : Diag)
  deriving DecidableEq

/-- `EXIT_FAILURE` of `stdlib.h`. -/
def EXIT_FAILURE : Int := 1

/-- `static int MAX_THREADS = 100;` -/
def MAX_THREADS : Int := 100

/-- The responses sent on message queue `q`, in the order of the trace. -/
def responses_on (q : Int) : List Event → List gtipc_response
  | [] => []
  | Event.mq_send_response q' r :: es =>
      if q' = q then r :: responses_on q es else responses_on q es
  | _ :: es => responses_on q es

/-! ## Service handlers and the worker -/

/-- Wrap an integer to the `w`-bit two's complement range. -/
def wrap_int (w : Nat) (v : Int) : Int := Int.bmod v (2 ^ w)

/-- `void add(gtipc_arg *arg)`: `arg->res = arg->x + arg->y`. -/
def add (w : Nat) (arg : gtipc_arg) : gtipc_arg :=
  { arg with res := wrap_int w (arg.x + arg.y) }

/-- `void mul(gtipc_arg *arg)`: `arg->res = arg->x * arg->y`. -/
def mul (w : Nat) (arg : gtipc_arg) : gtipc_arg :=
  { arg with res := wrap_int w (arg.x * arg.y) }

/-- `pthread_mutex_lock(&entry->mutex)`: blocks while the mutex is held. -/
def entry_lock (entry : gtipc_shared_entry) : Outcome gtipc_shared_entry :=
  if entry.mutex then Outcome.blocked else Outcome.ret { entry with mutex := true }

/-- `pthread_mutex_unlock(&entry->mutex)`. -/
def entry_unlock (entry : gtipc_shared_entry) : gtipc_shared_entry :=
  { entry with mutex := false }

/-- `void request_complete(gtipc_shared_entry *entry, gtipc_arg *arg)`:
lock, `entry->done = 1`, `entry->arg = *arg`, unlock. -/
def request_complete (entry : gtipc_shared_entry) (arg : gtipc_arg) :
    Outcome gtipc_shared_entry :=
  (entry_lock entry).bind fun e1 =>
    let e2 := { e1 with done := 1 }
    let e3 := { e2 with arg := arg }
    Outcome.ret (entry_unlock e3)

/-- `void cleanup_compute_thread(client_thread_arg *thread_arg)`, on the
counter: `service_threads.curr--`. Its `free(thread_arg)` is what makes the
last read of `compute_service` a read of freed memory. -/
def cleanup_compute_thread (st : service_threads) : service_threads :=
  { curr := st.curr - 1 }

/-- What a worker thread sees: the client record it was given, the client's
mapped segment `client->shm_addr` read as an array of entries, the
thread counter and the trace. -/
structure WorkerState where
  client : client
  shm : List gtipc_shared_entry
  threads : service_threads
  trace : List Event
  deriving DecidableEq

/-- The `switch (req->service)` of `compute_service`: the argument after the
handler, and what was printed. -/
def compute_switch (w : Nat) (req : gtipc_request) : gtipc_arg × List Event :=
  match req.service with
  | gtipc_service.GTIPC_ADD => (add w req.arg, [])
  | gtipc_service.GTIPC_MUL => (mul w req.arg, [])
  | gtipc_service.other _ => (req.arg, [Event.print (Diag.invalid_service req.pid)])

/-- `void *compute_service(void *data)`: resolve the entry at
`shm_addr + entry_idx * sizeof(gtipc_shared_entry)`, run the `switch`, call
`request_complete(entry, arg)`, then `cleanup_compute_thread(thread_arg)`,
then `printf` with `client->pid` and `req->request_id`. An index outside
the segment is a fault. `req` is `&thread_arg->req` and `thread_arg` is
freed by then: `freed_arg` is what the freed block holds when the `printf`
reads it (indeterminate), and the id printed is the one found there, not
the one of the request. `client` was loaded from `thread_arg` before the
`free` and points to the client record, which is not freed here. -/
def compute_service (w : Nat) (freed_arg : client_thread_arg) (thread_arg : client_thread_arg)
    (s : WorkerState) : Outcome WorkerState :=
  let req := thread_arg.req
  match s.shm[req.entry_idx]? with
  | none => Outcome.fault
  | some entry =>
      let sw := compute_switch w req
      (request_complete entry sw.1).bind fun entry' =>
        Outcome.ret
          { client := s.client
            shm := s.shm.set req.entry_idx entry'
            threads := cleanup_compute_thread s.threads
            trace := s.trace ++ sw.2 ++
              [Event.print (Diag.request_done s.client.pid freed_arg.req.request_id)] }

/-- The event is a printed line, not a call on a queue, a mapping, a
descriptor or a thread. -/
def is_print : Event → Bool
  | Event.print _ => true
  | _ => false

/-! ## The list of registered clients -/

/-- The registry thread's view: the global `clients`, the heap of list nodes
(`none` at an address that is not allocated) and the trace. -/
structure RegistryState where
  clients : Ptr
  heap : Nat → Option client_list
  trace : List Event

/-- Read the node at an address; freed or never allocated memory faults. -/
def load (heap : Nat → Option client_list) (a : Nat) : Outcome client_list :=
  match heap a with
  | none => Outcome.fault
  | some n => Outcome.ret n

/-- Write the node at an address. -/
def store (heap : Nat → Option client_list) (a : Nat) (n : client_list) :
    Nat → Option client_list :=
  fun b => if b = a then some n else heap b

/-- The heap after `free(node)`. -/
def release (heap : Nat → Option client_list) (a : Nat) : Nat → Option client_list :=
  fun b => if b = a then none else heap b

/-- The loop of `find_client`:
`while (list != NULL && list->client.pid != pid) list = list->next;`. -/
def find_client_loop (heap : Nat → Option client_list) (pid : Int) : Nat → Ptr → Outcome Ptr
  | _, none => Outcome.ret none
  | 0, some _ => Outcome.nofuel
  | fuel + 1, some a =>
      (load heap a).bind fun n =>
        if n.client.pid ≠ pid then find_client_loop heap pid fuel n.next
        else Outcome.ret (some a)

/-- `client_list *find_client(int pid)`, from the global `clients`. -/
def find_client (fuel : Nat) (pid : Int) (s : RegistryState) : Outcome Ptr :=
  find_client_loop s.heap pid fuel s.clients

/-- `void remove_client(client_list *node)`. -/
def remove_client (node : Ptr) (s : RegistryState) : Outcome RegistryState :=
  match node with
  | none => Outcome.ret s
  | some a =>
      (load s.heap a).bind fun n =>
        if n.prev = none ∧ n.next = none then
          Outcome.ret { s with clients := none }
        else
          -- if (node->prev != NULL) node->prev->next = node->next;
          (match n.prev with
            | none => Outcome.ret s.heap
            | some p =>
                (load s.heap p).bind fun pn =>
                  Outcome.ret (store s.heap p { pn with next := n.next })).bind fun h1 =>
          (load h1 a).bind fun n1 =>
            match n1.next with
            | some nx =>
                -- node->next->prev = node->prev;
                (load h1 nx).bind fun nn =>
                  Outcome.ret { s with heap := store h1 nx { nn with prev := n1.prev } }
            | none =>
                -- clients->tail = node->prev;
                match s.clients with
                | none => Outcome.fault
                | some hd =>
                    (load h1 hd).bind fun hn =>
                      Outcome.ret { s with heap := store h1 hd { hn with tail := n1.prev } }

/-- `void append_client(client_list *node)`; `a` is the address of the node.
In the first branch `node->prev` and `node->next` are left as they were. -/
def append_client (a : Nat) (s : RegistryState) : Outcome RegistryState :=
  match s.clients with
  | none =>
      (load s.heap a).bind fun n =>
        Outcome.ret { s with heap := store s.heap a { n with tail := some a }, clients := some a }
  | some hd =>
      -- client_list *tail = clients->tail;
      (load s.heap hd).bind fun hn =>
        let tail := hn.tail
        (load s.heap a).bind fun n =>
          let h1 := store s.heap a { n with prev := tail, next := none, tail := some a }
          -- tail->next = node;
          match tail with
          | none => Outcome.fault
          | some t =>
              (load h1 t).bind fun tn =>
                let h2 := store h1 t { tn with next := some a }
                -- clients->tail = node;
                (load h2 hd).bind fun hn2 =>
                  Outcome.ret { s with heap := store h2 hd { hn2 with tail := some a } }

/-- What the operating system and the C runtime answer during
`register_client`, and the indeterminate memory it starts from. -/
structure RegisterEnv where
  /-- Result of `mq_open(reg->recv_queue_name, O_RDWR)`; `-1` is failure. -/
  mq_open_send : Int
  /-- Result of `mq_open(reg->send_queue_name, O_RDWR)`; `-1` is failure. -/
  mq_open_recv : Int
  /-- Result of `shm_open`; `-1` is failure. -/
  shm_open_fd : Int
  /-- The `st_size` that `fstat` reports. -/
  st_size : Nat
  /-- Result of `mmap` (not checked by the code). -/
  mmap_addr : Nat
  /-- Address `malloc` returns. -/
  malloc_addr : Nat
  /-- Contents of the block `malloc` returns (indeterminate). -/
  malloc_block : client_list
  /-- Contents of the local `client` before it is assigned (indeterminate). -/
  local_client : client
  /-- Thread id `pthread_create` stores. -/
  thread : Nat

/-- `void open_shm_object(gtipc_registry *reg, client *client)`: the client
record after the call and the events of the call. -/
def open_shm_object (env : RegisterEnv) (reg : gtipc_registry) (c : client) :
    Outcome (client × List Event) :=
  if env.shm_open_fd = -1 then
    Outcome.exited EXIT_FAILURE
  else
    let c1 := { c with shm_name := reg.shm_name }
    let c2 := { c1 with shm_size := env.st_size }
    let c3 := { c2 with shm_addr := env.mmap_addr }
    Outcome.ret (c3, [Event.close env.shm_open_fd])

/-- `int register_client(gtipc_registry *reg)`. The two assignments after
`append_client` (`client.stop_client_thread = 0` and the thread id stored by
`pthread_create`) go to the local `client`, of which the node holds a copy
made before them: they do not reach the state. -/
def register_client (env : RegisterEnv) (reg : gtipc_registry) (s : RegistryState) :
    Outcome RegistryState :=
  let c0 := { env.local_client with pid := reg.pid }
  let c1 := { c0 with send_queue := env.mq_open_send }
  let c2 := { c1 with recv_queue := env.mq_open_recv }
  if c2.send_queue = -1 ∨ c2.recv_queue = -1 then
    Outcome.exited EXIT_FAILURE
  else
    (open_shm_object env reg c2).bind fun r =>
      -- client_list *node = malloc(...); node->client = client;
      let node := { env.malloc_block with client := r.1 }
      let s1 : RegistryState :=
        { s with heap := store s.heap env.malloc_addr node, trace := s.trace ++ r.2 }
      (append_client env.malloc_addr s1).bind fun s2 =>
        Outcome.ret
          { s2 with trace := s2.trace ++ [Event.pthread_create_client_handler env.malloc_addr] }

/-- `int unregister_client(int pid, int close)`; `send_status` is what the
`mq_send` of the poison pill returns when `close` is not zero. -/
def unregister_client (fuel : Nat) (send_status : Int) (pid : Int) (close : Int)
    (s : RegistryState) : Outcome RegistryState :=
  (find_client fuel pid s).bind fun node =>
    match node with
    | none => Outcome.ret s
    | some a =>
        (load s.heap a).bind fun n =>
          let poison : List Event :=
            if close ≠ 0 then
              Event.mq_send_registry n.client.send_queue gtipc_registry_cmd.GTIPC_SERVER_CLOSE ::
                (if send_status ≠ 0 then [Event.print (Diag.poison_failed n.client.pid)] else [])
            else []
          let s1 : RegistryState := { s with trace := s.trace ++ poison }
          (remove_client (some a) s1).bind fun s2 =>
            (load s2.heap a).bind fun n2 =>
              let closing : List Event :=
                [Event.mq_close n2.client.send_queue, Event.mq_close n2.client.recv_queue,
                 Event.munmap n2.client.shm_addr n2.client.shm_size]
              -- client->stop_client_thread = 1; free(node);
              let h3 := store s2.heap a
                { n2 with client := { n2.client with stop_client_thread := 1 } }
              Outcome.ret { s2 with heap := release h3 a, trace := s2.trace ++ closing }

/-- The `switch (reg->cmd)` of `registry_handler`, for one record. -/
def registry_handler_record (fuel : Nat) (env : RegisterEnv) (reg : gtipc_registry)
    (s : RegistryState) : Outcome RegistryState :=
  match reg.cmd with
  | gtipc_registry_cmd.GTIPC_CLIENT_REGISTER => register_client env reg s
  | gtipc_registry_cmd.GTIPC_CLIENT_UNREGISTER => unregister_client fuel 0 reg.pid 0 s
  | gtipc_registry_cmd.GTIPC_CLIENT_CLOSE => unregister_client fuel 0 reg.pid 0 s
  | gtipc_registry_cmd.GTIPC_SERVER_CLOSE => Outcome.ret s

/-- The pids met when following `next` from a pointer, with the same faults
as `find_client`. -/
def pids_from (heap : Nat → Option client_list) : Nat → Ptr → Outcome (List Int)
  | _, none => Outcome.ret []
  | 0, some _ => Outcome.nofuel
  | fuel + 1, some a =>
      (load heap a).bind fun n =>
        (pids_from heap fuel n.next).bind fun rest => Outcome.ret (n.client.pid :: rest)

/-! ## Resizing a client's segment -/

/-- `memcpy(dst, src, n)` on a byte-addressed memory, one byte after the
other from the lowest address. -/
def memcpy (mem : Nat → Nat) (dst src : Nat) : Nat → (Nat → Nat)
  | 0 => mem
  | n + 1 =>
      let m := memcpy mem dst src n
      fun a => if a = dst + n then m (src + n) else m a

/-- The wait loop of `resize_shm_object`
(`while (service_threads.curr != 0) pthread_cond_wait(...)`): the caller is
blocked until the counter is zero. -/
def resize_wait (st : service_threads) : Outcome Unit :=
  if st.curr ≠ 0 then Outcome.blocked else Outcome.ret ()

/-- What the dispatcher thread sees during a resize: its client record, the
bytes of the address space, the thread counter and the trace. -/
structure ResizeState where
  client : client
  mem : Nat → Nat
  threads : service_threads
  trace : List Event

/-- What the operating system answers during `resize_shm_object`, and the
indeterminate contents of the local `resp`. -/
structure ResizeEnv where
  /-- Result of `shm_open(client->shm_name, ...)`; `-1` is failure. -/
  shm_open_fd : Int
  /-- The `st_size` that `fstat` reports: the new size. -/
  st_size : Nat
  /-- Result of `mmap`: the address of the new mapping. -/
  mmap_addr : Nat
  /-- Contents of the local `resp` before `resp.request_id = -1`. -/
  resp_local : gtipc_response

/-- `void resize_shm_object(client *client)`. -/
def resize_shm_object (env : ResizeEnv) (s : ResizeState) : Outcome ResizeState :=
  if env.shm_open_fd = -1 then
    Outcome.exited EXIT_FAILURE
  else
    let new_shm_size := env.st_size
    let new_shm_addr := env.mmap_addr
    (resize_wait s.threads).bind fun _ =>
      let mem1 := memcpy s.mem new_shm_addr s.client.shm_addr s.client.shm_size
      let resp := { env.resp_local with request_id := -1 }
      let ev1 := Event.mq_send_response s.client.send_queue resp
      let c1 := { s.client with shm_addr := new_shm_addr }
      let c2 := { c1 with shm_size := new_shm_size }
      Outcome.ret
        { client := c2
          mem := mem1
          threads := s.threads
          trace := s.trace ++ [ev1, Event.close env.shm_open_fd] }

/-! ## The dispatcher -/

/-- The deadline `client_handler` passes to `mq_timedreceive`, from the
time `clock_gettime` returned: `ts.tv_nsec += 10000000; ts.tv_sec = 0;`. -/
def client_handler_deadline (now : timespec) : timespec :=
  let ts := now
  let ts1 := { ts with tv_nsec := ts.tv_nsec + 10000000 }
  { ts1 with tv_sec := 0 }

/-- A `timespec` is valid when `0 <= tv_nsec < 1000000000`. -/
def timespec_valid (ts : timespec) : Prop :=
  0 ≤ ts.tv_nsec ∧ ts.tv_nsec < 1000000000

instance (ts : timespec) : Decidable (timespec_valid ts) := by
  unfold timespec_valid
  exact inferInstance

/-- A `timespec` in nanoseconds. -/
def timespec_ns (ts : timespec) : Int :=
  ts.tv_sec * 1000000000 + ts.tv_nsec

/-- Where the thread of a dispatcher (`client_handler`) stands. -/
inductive DispatcherPc where
  /-- In the `while` loop, at `mq_timedreceive`. -/
  | receiving
  /-- In `spawn_compute_thread(req, client)`, at its wait loop. -/
  | spawn_wait (req : gtipc_request)
  /-- In `resize_shm_object`, new region mapped, at its wait loop. -/
  | resize_wait
  /-- In `resize_shm_object`, past the wait loop, before `memcpy`. -/
  | resize_copy
  /-- In `resize_shm_object`, after `memcpy`, before `mq_send`. -/
  | resize_notify
  /-- In `resize_shm_object`, after `mq_send`, before the switch of
  `shm_addr` and `shm_size`. -/
  | resize_switch
  /-- Out of the `while` loop: `stop_client_thread` was seen set. -/
  | stopped
  deriving DecidableEq

/-- The threads of the server: the counter, the workers that were submitted
and have not yet run `cleanup_compute_thread` (each with the client it
serves, by the position of its dispatcher), and one dispatcher for each
registered client, in the order of registration. -/
structure Server where
  threads : service_threads
  workers : List client_thread_arg
  dispatchers : List DispatcherPc
  deriving DecidableEq

/-- The moves of the threads. -/
inductive Action where
  /-- The registry thread starts the dispatcher of a new client. -/
  | register
  /-- Dispatcher `c` receives a record. -/
  | receive (c : Nat) (req : gtipc_request)
  /-- Dispatcher `c` leaves the wait loop of `spawn_compute_thread`,
  increments the counter and creates the worker. -/
  | spawn (c : Nat)
  /-- Worker `i` runs `compute_service` through `cleanup_compute_thread`. -/
  | complete (i : Nat)
  /-- Dispatcher `c` leaves the wait loop of `resize_shm_object`. -/
  | resize_observe (c : Nat)
  /-- Dispatcher `c` runs the `memcpy` of `resize_shm_object`. -/
  | resize_memcpy (c : Nat)
  /-- Dispatcher `c` runs the `mq_send` of `resize_shm_object`. -/
  | resize_send (c : Nat)
  /-- Dispatcher `c` switches `shm_addr` and `shm_size` and returns. -/
  | resize_refs (c : Nat)
  /-- Dispatcher `c` sees `stop_client_thread` set and leaves its loop. -/
  | stop (c : Nat)
  deriving DecidableEq

/-- The state `init_server` leaves: `service_threads.curr = 0`, no worker,
no client. -/
def init_server : Server :=
  { threads := { curr := 0 }, workers := [], dispatchers := [] }

/-- `void spawn_compute_thread(gtipc_request *req, client *client)`: the
caller is blocked while `service_threads.curr >= MAX_THREADS`; then
`service_threads.curr++` and a worker thread is created with the request
and the client. -/
def spawn_compute_thread (req : gtipc_request) (client : Nat) (s : Server) : Outcome Server :=
  if s.threads.curr ≥ MAX_THREADS then Outcome.blocked
  else
    Outcome.ret
      { s with
        threads := { curr := s.threads.curr + 1 }
        workers := s.workers ++ [{ req := req, client := client }] }

/-- Move dispatcher `c` from `src` to `dst`, when it stands at `src`. -/
def advance (c : Nat) (src dst : DispatcherPc) (s : Server) : Option Server :=
  if s.dispatchers[c]? = some src then
    some { s with dispatchers := s.dispatchers.set c dst }
  else none

/-- One move; `none` when the move is not enabled. -/
def step (a : Action) (s : Server) : Option Server :=
  match a with
  | Action.register =>
      some { s with dispatchers := s.dispatchers ++ [DispatcherPc.receiving] }
  | Action.receive c req =>
      -- if (req->request_id == -1) resize_shm_object(client); else spawn_compute_thread(req, client);
      advance c DispatcherPc.receiving
        (if req.request_id = -1 then DispatcherPc.resize_wait else DispatcherPc.spawn_wait req) s
  | Action.spawn c =>
      match s.dispatchers[c]? with
      | some (DispatcherPc.spawn_wait req) =>
          match spawn_compute_thread req c s with
          | Outcome.ret s1 =>
              some { s1 with dispatchers := s1.dispatchers.set c DispatcherPc.receiving }
          | _ => none
      | _ => none
  | Action.complete i =>
      if i < s.workers.length then
        some { s with threads := cleanup_compute_thread s.threads, workers := s.workers.eraseIdx i }
      else none
  | Action.resize_observe c =>
      match resize_wait s.threads with
      | Outcome.ret _ => advance c DispatcherPc.resize_wait DispatcherPc.resize_copy s
      | _ => none
  | Action.resize_memcpy c => advance c DispatcherPc.resize_copy DispatcherPc.resize_notify s
  | Action.resize_send c => advance c DispatcherPc.resize_notify DispatcherPc.resize_switch s
  | Action.resize_refs c => advance c DispatcherPc.resize_switch DispatcherPc.receiving s
  | Action.stop c => advance c DispatcherPc.receiving DispatcherPc.stopped s

/-- A sequence of moves from a state; `none` when one of them is not
enabled. -/
def run : List Action → Server → Option Server
  | [], s => some s
  | a :: as, s => (step a s).bind (run as)

/-- Dispatcher `c` is between the end of the wait loop of
`resize_shm_object` and its return: it copies, notifies or switches. -/
def resizing (s : Server) (c : Nat) : Prop :=
  s.dispatchers[c]? = some DispatcherPc.resize_copy ∨
  s.dispatchers[c]? = some DispatcherPc.resize_notify ∨
  s.dispatchers[c]? = some DispatcherPc.resize_switch

/-- Dispatcher `c` is inside `resize_shm_object`. -/
def in_resize (s : Server) (c : Nat) : Prop :=
  s.dispatchers[c]? = some DispatcherPc.resize_wait ∨ resizing s c

/-- What holds in every state the threads can reach: the counter is the
number of live workers, it is at most `MAX_THREADS`, and no live worker
serves a client whose dispatcher is copying, notifying or switching. -/
def server_inv (s : Server) : Prop :=
  s.threads.curr = s.workers.length ∧ s.threads.curr ≤ MAX_THREADS ∧
  ∀ c, resizing s c → ∀ t ∈ s.workers, t.client ≠ c

/-! ## Concrete inputs -/

/-- A client record: pid 7, response queue 3, request queue 4. -/
def client7 : client :=
  { pid := 7, send_queue := 3, recv_queue := 4, shm_addr := 4096, shm_size := 128,
    shm_name := [47, 115], client_thread := 1, stop_client_thread := 0 }

/-- A worker state: a segment of two pending entries, one worker active. -/
def worker_state0 : WorkerState :=
  { client := client7
    shm := [{ arg := { x := 0, y := 0, res := 0 }, done := 0, mutex := false },
            { arg := { x := 0, y := 0, res := 0 }, done := 0, mutex := false }]
    threads := { curr := 1 }
    trace := [] }

/-- An `ADD(3, 4)` request for entry 1. -/
def add_request : client_thread_arg :=
  { req := { request_id := 5, service := gtipc_service.GTIPC_ADD, entry_idx := 1, pid := 7,
             arg := { x := 3, y := 4, res := 0 } }
    client := 0 }

/-- A `MUL(3, 4)` request for entry 0. -/
def mul_request : client_thread_arg :=
  { req := { request_id := 6, service := gtipc_service.GTIPC_MUL, entry_idx := 0, pid := 7,
             arg := { x := 3, y := 4, res := 0 } }
    client := 0 }

/-- What the block of a `thread_arg` happens to hold once it is freed: here
zeroes, so a request id 0 that is the id of none of the requests above. -/
def freed_block : client_thread_arg :=
  { req := { request_id := 0, service := gtipc_service.other 0, entry_idx := 0, pid := 0,
             arg := { x := 0, y := 0, res := 0 } }
    client := 0 }

/-- A request with a selector that is neither `ADD` nor `MUL`, for entry 0. -/
def unknown_request : client_thread_arg :=
  { req := { request_id := 8, service := gtipc_service.other 9, entry_idx := 0, pid := 7,
             arg := { x := 3, y := 4, res := 0 } }
    client := 0 }

/-- A request with the resize sentinel `request_id = -1`. -/
def resize_request : gtipc_request :=
  { request_id := -1, service := gtipc_service.GTIPC_ADD, entry_idx := 0, pid := 7,
    arg := { x := 0, y := 0, res := 0 } }

/-- Two clients register; client 0 submits an ADD, client 1 a MUL; the
worker of client 0 completes. -/
def submit_run : List Action :=
  [Action.register, Action.register,
   Action.receive 0 add_request.req, Action.spawn 0,
   Action.receive 1 mul_request.req, Action.spawn 1,
   Action.complete 0]

/-- The state after `submit_run`: one live worker, for client 1. -/
def submit_state : Server :=
  { threads := { curr := 1 }
    workers := [{ req := mul_request.req, client := 1 }]
    dispatchers := [DispatcherPc.receiving, DispatcherPc.receiving] }

/-- Two clients register; client 0 asks for a resize and its dispatcher
leaves the wait loop while no worker is live; client 1 then submits a MUL;
dispatcher 0 copies. -/
def resize_run : List Action :=
  [Action.register, Action.register,
   Action.receive 0 resize_request, Action.resize_observe 0,
   Action.receive 1 mul_request.req, Action.spawn 1,
   Action.resize_memcpy 0]

/-- The state after `resize_run`: dispatcher 0 is about to notify, the one
live worker serves client 1. -/
def resize_state : Server :=
  { threads := { curr := 1 }
    workers := [{ req := mul_request.req, client := 1 }]
    dispatchers := [DispatcherPc.resize_notify, DispatcherPc.receiving] }

/-- A dispatcher about to resize: the segment of 128 bytes at 4096, no live
worker, a memory whose byte at address `a` is `a % 251`. -/
def resize_state0 : ResizeState :=
  { client := client7, mem := fun a => a % 251, threads := { curr := 0 }, trace := [] }

/-- The object was enlarged to 256 bytes and is mapped at 8192. -/
def resize_env0 : ResizeEnv :=
  { shm_open_fd := 5, st_size := 256, mmap_addr := 8192,
    resp_local := { request_id := 0, entry_idx := 0 } }

/-- A time the clock can return: valid, 5 ms before the end of a second. -/
def clock_now : timespec := { tv_sec := 1700000000, tv_nsec := 995000000 }

/-- No client is registered. -/
def registry_empty : RegistryState :=
  { clients := none, heap := fun _ => none, trace := [] }

/-- A `malloc` block and a local that happen to hold zeroes. -/
def zero_client : client :=
  { pid := 0, send_queue := 0, recv_queue := 0, shm_addr := 0, shm_size := 0,
    shm_name := [], client_thread := 0, stop_client_thread := 0 }

/-- A `REGISTER` record of the client with the given pid. -/
def register_record (pid : Int) : gtipc_registry :=
  { cmd := gtipc_registry_cmd.GTIPC_CLIENT_REGISTER, pid := pid,
    send_queue_name := [47, 115], recv_queue_name := [47, 114], shm_name := [47, 109] }

/-- Every call succeeds, the node is allocated at `addr`; the `malloc` block
and the local hold zeroes. -/
def register_env (addr : Nat) : RegisterEnv :=
  { mq_open_send := 3, mq_open_recv := 4, shm_open_fd := 5, st_size := 128,
    mmap_addr := 4096, malloc_addr := addr,
    malloc_block := { client := zero_client, tail := none, next := none, prev := none },
    local_client := zero_client, thread := 1 }

/-- Every call succeeds, the node is allocated at 100; the `malloc` block
holds a stale `next` (999) and the local a stale `stop_client_thread` (1). -/
def register_env_stale : RegisterEnv :=
  { register_env 100 with
    malloc_block := { client := zero_client, tail := none, next := some 999, prev := none },
    local_client := { zero_client with stop_client_thread := 1 } }

/-- The clients 1 and 2 registered in this order on the empty list, every
call succeeding, nodes at 100 and 200, `malloc` blocks and locals zeroed. -/
def registry_two : Outcome RegistryState :=
  (register_client (register_env 100) (register_record 1) registry_empty).bind
    (register_client (register_env 200) (register_record 2))

/-- The clients 1, 2 and 3 registered in this order, nodes at 100, 200, 300. -/
def registry_three : Outcome RegistryState :=
  registry_two.bind (register_client (register_env 300) (register_record 3))

/-! ## Lemmas -/

theorem request_complete_free (entry : gtipc_shared_entry) (arg : gtipc_arg)
    (hfree : entry.mutex = false) :
    request_complete entry arg = Outcome.ret { arg := arg, done := 1, mutex := false } := by
  simp [request_complete, entry_lock, entry_unlock, hfree, Outcome.bind]

theorem compute_service_ret (w : Nat) (freed_arg thread_arg : client_thread_arg)
    (s : WorkerState)
    (hidx : thread_arg.req.entry_idx < s.shm.length)
    (hfree : (s.shm[thread_arg.req.entry_idx]).mutex = false) :
    compute_service w freed_arg thread_arg s = Outcome.ret
      { client := s.client
        shm := s.shm.set thread_arg.req.entry_idx
          { arg := (compute_switch w thread_arg.req).1, done := 1, mutex := false }
        threads := cleanup_compute_thread s.threads
        trace := s.trace ++ (compute_switch w thread_arg.req).2 ++
          [Event.print (Diag.request_done s.client.pid freed_arg.req.request_id)] } := by
  unfold compute_service
  simp only [List.getElem?_eq_getElem hidx]
  rw [request_complete_free _ _ hfree]
  rfl

theorem wrap_int_eq_self (w : Nat) (v : Int) (hw : 0 < w)
    (hlo : -(2 ^ (w - 1) : Int) ≤ v) (hhi : v < (2 ^ (w - 1) : Int)) :
    wrap_int w v = v := by
  obtain ⟨k, rfl⟩ : ∃ k, w = k + 1 := ⟨w - 1, by omega⟩
  simp only [Nat.add_sub_cancel] at hlo hhi
  unfold wrap_int Int.bmod
  have hpow : ((2 ^ (k + 1) : Nat) : Int) = 2 * (2 : Int) ^ k := by
    push_cast
    ring
  rw [hpow]
  have hpos : (0 : Int) < 2 ^ k := by positivity
  have hhalf : (2 * (2 : Int) ^ k + 1) / 2 = 2 ^ k := by omega
  rw [hhalf]
  by_cases hv : 0 ≤ v
  · have hmod : v % (2 * (2 : Int) ^ k) = v := Int.emod_eq_of_lt hv (by omega)
    rw [hmod]
    simp [hhi]
  · have hmod : v % (2 * (2 : Int) ^ k) = v + 2 * (2 : Int) ^ k := by
      rw [← Int.add_emod_self]
      exact Int.emod_eq_of_lt (by omega) (by omega)
    rw [hmod]
    have : ¬ (v + 2 * (2 : Int) ^ k < 2 ^ k) := by omega
    simp [this]

theorem responses_on_append (q : Int) (xs ys : List Event) :
    responses_on q (xs ++ ys) = responses_on q xs ++ responses_on q ys := by
  induction xs with
  | nil => rfl
  | cons e es ih =>
      cases e <;> simp [responses_on, ih]
      split <;> simp

theorem responses_on_compute_switch (q : Int) (w : Nat) (req : gtipc_request) :
    responses_on q (compute_switch w req).2 = [] := by
  unfold compute_switch
  cases req.service <;> rfl

/-! ## The worker: results, unknown selectors, responses -/

/-- C1: for every segment, every entry index inside it whose mutex is free
and every argument (x, y), `compute_service` returns, the entry at that index
ends with completion flag 1 and the argument of the request, with result
x + y for ADD and x * y for MUL, wrapped to the width of the argument type;
the wrapped value is the exact one when it fits the type. This holds
whatever the freed block of `thread_arg` holds at the last `printf`. -/
theorem compute_service_add_mul (w : Nat) (freed_arg thread_arg : client_thread_arg)
    (s : WorkerState)
    (hidx : thread_arg.req.entry_idx < s.shm.length)
    (hfree : (s.shm[thread_arg.req.entry_idx]).mutex = false) :
    ∃ s' entry', compute_service w freed_arg thread_arg s = Outcome.ret s' ∧
      s'.shm.length = s.shm.length ∧
      s'.shm[thread_arg.req.entry_idx]? = some entry' ∧
      entry'.done = 1 ∧
      entry'.arg.x = thread_arg.req.arg.x ∧
      entry'.arg.y = thread_arg.req.arg.y ∧
      (thread_arg.req.service = gtipc_service.GTIPC_ADD →
        entry'.arg.res = wrap_int w (thread_arg.req.arg.x + thread_arg.req.arg.y) ∧
        entry'.arg.res = wrap_int w (entry'.arg.x + entry'.arg.y) ∧
        (0 < w → -(2 ^ (w - 1) : Int) ≤ thread_arg.req.arg.x + thread_arg.req.arg.y →
          thread_arg.req.arg.x + thread_arg.req.arg.y < (2 ^ (w - 1) : Int) →
          entry'.arg.res = thread_arg.req.arg.x + thread_arg.req.arg.y)) ∧
      (thread_arg.req.service = gtipc_service.GTIPC_MUL →
        entry'.arg.res = wrap_int w (thread_arg.req.arg.x * thread_arg.req.arg.y) ∧
        entry'.arg.res = wrap_int w (entry'.arg.x * entry'.arg.y) ∧
        (0 < w → -(2 ^ (w - 1) : Int) ≤ thread_arg.req.arg.x * thread_arg.req.arg.y →
          thread_arg.req.arg.x * thread_arg.req.arg.y < (2 ^ (w - 1) : Int) →
          entry'.arg.res = thread_arg.req.arg.x * thread_arg.req.arg.y)) := by
  refine ⟨_, { arg := (compute_switch w thread_arg.req).1, done := 1, mutex := false },
    compute_service_ret w freed_arg thread_arg s hidx hfree, by simp, ?_, rfl, ?_, ?_, ?_, ?_⟩
  · simp [List.getElem?_set, hidx]
  · unfold compute_switch
    cases thread_arg.req.service <;> rfl
  · unfold compute_switch
    cases thread_arg.req.service <;> rfl
  · intro hadd
    have hsw : (compute_switch w thread_arg.req).1 = add w thread_arg.req.arg := by
      simp [compute_switch, hadd]
    rw [hsw]
    exact ⟨rfl, rfl, fun hw hlo hhi => wrap_int_eq_self w _ hw hlo hhi⟩
  · intro hmul
    have hsw : (compute_switch w thread_arg.req).1 = mul w thread_arg.req.arg := by
      simp [compute_switch, hmul]
    rw [hsw]
    exact ⟨rfl, rfl, fun hw hlo hhi => wrap_int_eq_self w _ hw hlo hhi⟩

/-- Witness of C1: `ADD(3, 4)` on entry 1 of a two-entry segment, 32-bit
arguments: the entry ends with flag 1 and result 7. -/
theorem compute_service_add_mul_witness :
    add_request.req.entry_idx < worker_state0.shm.length ∧
    ∃ s' entry', compute_service 32 freed_block add_request worker_state0 = Outcome.ret s' ∧
      s'.shm[1]? = some entry' ∧ entry'.done = 1 ∧ entry'.arg.res = 7 := by
  refine ⟨by decide, ?_⟩
  obtain ⟨s', entry', hret, _, hget, hdone, _, _, hadd, _⟩ :=
    compute_service_add_mul 32 freed_block add_request worker_state0 (by decide) (by decide)
  exact ⟨s', entry', hret, hget, hdone, (hadd rfl).2.2 (by decide) (by decide) (by decide)⟩

/-- C2, counterexample: a request with selector `other 9` on a pending entry
(flag 0): the worker returns and the flag of the entry is 1, not 0. -/
theorem unknown_service_flag_changes :
    ∃ s', compute_service 32 freed_block unknown_request worker_state0 = Outcome.ret s' ∧
      (worker_state0.shm[0]?).map (fun e => e.done) = some 0 ∧
      (s'.shm[0]?).map (fun e => e.done) = some 1 ∧
      (s'.shm[0]?).map (fun e => e.done) ≠ (worker_state0.shm[0]?).map (fun e => e.done) :=
  ⟨_, compute_service_ret 32 freed_block unknown_request worker_state0 (by decide) (by decide),
    by decide, by decide, by decide⟩

/-- C2, amended: for every request whose selector is neither ADD nor MUL,
whose entry index is inside the segment and whose entry mutex is free, the
worker returns, having printed the diagnostic of an invalid service with the
pid of the request, and completes the entry all the same: its flag is 1 and
its argument record is the one of the request, no handler applied. This
holds whatever the freed block of `thread_arg` holds at the last `printf`. -/
theorem compute_service_unknown_completes (w : Nat) (freed_arg thread_arg : client_thread_arg)
    (s : WorkerState) (code : Nat)
    (hsel : thread_arg.req.service = gtipc_service.other code)
    (hidx : thread_arg.req.entry_idx < s.shm.length)
    (hfree : (s.shm[thread_arg.req.entry_idx]).mutex = false) :
    ∃ s' entry' added, compute_service w freed_arg thread_arg s = Outcome.ret s' ∧
      s'.shm[thread_arg.req.entry_idx]? = some entry' ∧
      entry'.done = 1 ∧
      entry'.arg = thread_arg.req.arg ∧
      s'.trace = s.trace ++ added ∧
      Event.print (Diag.invalid_service thread_arg.req.pid) ∈ added := by
  have hsw : compute_switch w thread_arg.req =
      (thread_arg.req.arg, [Event.print (Diag.invalid_service thread_arg.req.pid)]) := by
    simp [compute_switch, hsel]
  refine ⟨_, { arg := (compute_switch w thread_arg.req).1, done := 1, mutex := false },
    (compute_switch w thread_arg.req).2 ++
      [Event.print (Diag.request_done s.client.pid freed_arg.req.request_id)],
    compute_service_ret w freed_arg thread_arg s hidx hfree, ?_, rfl, ?_, ?_, ?_⟩
  · simp [List.getElem?_set, hidx]
  · rw [hsw]
  · simp
  · rw [hsw]
    simp

/-- Witness of the amended C2: the selector `other 9` on entry 0. -/
theorem compute_service_unknown_completes_witness :
    unknown_request.req.entry_idx < worker_state0.shm.length ∧
    ∃ s' entry', compute_service 32 freed_block unknown_request worker_state0 =
        Outcome.ret s' ∧
      s'.shm[0]? = some entry' ∧ entry'.done = 1 ∧ entry'.arg = { x := 3, y := 4, res := 0 } := by
  refine ⟨by decide, ?_⟩
  obtain ⟨s', entry', _, hret, hget, hdone, harg, _⟩ :=
    compute_service_unknown_completes 32 freed_block unknown_request worker_state0 9 rfl
      (by decide) (by decide)
  exact ⟨s', entry', hret, hget, hdone, harg⟩

/-- C8, counterexample: for `ADD(3, 4)` with request id 5 on entry 1 the
worker returns and the responses sent on the response channel of the client
are still none: not the one response (5, 1) of the claim. -/
theorem compute_service_add_sends_nothing :
    ∃ s', compute_service 32 freed_block add_request worker_state0 = Outcome.ret s' ∧
      responses_on worker_state0.client.send_queue s'.trace = [] ∧
      responses_on worker_state0.client.send_queue s'.trace ≠
        responses_on worker_state0.client.send_queue worker_state0.trace ++
          [{ request_id := add_request.req.request_id,
             entry_idx := add_request.req.entry_idx }] :=
  ⟨_, compute_service_ret 32 freed_block add_request worker_state0 (by decide) (by decide),
    by decide, by decide⟩

/-- C8, amended: for every ADD or MUL request whose entry index is inside
the segment and whose entry mutex is free, the worker returns having written
to the entry the completion flag 1 and the x and y of the request with
result x + y for ADD and x * y for MUL, wrapped to the width of the argument
type, and it sends no response record: every event it adds to the trace is a
printed line, and on every message queue the responses sent are the ones
sent before the call. This holds whatever the freed block of `thread_arg`
holds at the last `printf`. -/
theorem compute_service_sends_no_response (w : Nat) (freed_arg thread_arg : client_thread_arg)
    (s : WorkerState)
    (hsel : thread_arg.req.service = gtipc_service.GTIPC_ADD ∨
      thread_arg.req.service = gtipc_service.GTIPC_MUL)
    (hidx : thread_arg.req.entry_idx < s.shm.length)
    (hfree : (s.shm[thread_arg.req.entry_idx]).mutex = false) :
    ∃ s' entry' added, compute_service w freed_arg thread_arg s = Outcome.ret s' ∧
      s'.shm[thread_arg.req.entry_idx]? = some entry' ∧
      entry'.done = 1 ∧
      entry'.arg.x = thread_arg.req.arg.x ∧
      entry'.arg.y = thread_arg.req.arg.y ∧
      (thread_arg.req.service = gtipc_service.GTIPC_ADD →
        entry'.arg.res = wrap_int w (thread_arg.req.arg.x + thread_arg.req.arg.y)) ∧
      (thread_arg.req.service = gtipc_service.GTIPC_MUL →
        entry'.arg.res = wrap_int w (thread_arg.req.arg.x * thread_arg.req.arg.y)) ∧
      s'.trace = s.trace ++ added ∧
      (∀ e ∈ added, is_print e = true) ∧
      (∀ q, responses_on q s'.trace = responses_on q s.trace) := by
  have hsw : (compute_switch w thread_arg.req).2 = [] := by
    rcases hsel with h | h <;> simp [compute_switch, h]
  refine ⟨_, { arg := (compute_switch w thread_arg.req).1, done := 1, mutex := false },
    [Event.print (Diag.request_done s.client.pid freed_arg.req.request_id)],
    compute_service_ret w freed_arg thread_arg s hidx hfree, ?_, rfl, ?_, ?_, ?_, ?_, ?_, ?_, ?_⟩
  · simp [List.getElem?_set, hidx]
  · unfold compute_switch
    cases thread_arg.req.service <;> rfl
  · unfold compute_switch
    cases thread_arg.req.service <;> rfl
  · intro hadd
    simp [compute_switch, hadd, add]
  · intro hmul
    simp [compute_switch, hmul, mul]
  · simp [hsw]
  · intro e he
    simp only [List.mem_singleton] at he
    subst he
    rfl
  · intro q
    simp [responses_on_append, hsw, responses_on]

/-- Witness of the amended C8: `MUL(3, 4)` on entry 0. -/
theorem compute_service_sends_no_response_witness :
    mul_request.req.entry_idx < worker_state0.shm.length ∧
    ∃ s' entry', compute_service 32 freed_block mul_request worker_state0 = Outcome.ret s' ∧
      s'.shm[0]? = some entry' ∧ entry'.done = 1 ∧
      entry'.arg.res = wrap_int 32 (3 * 4) ∧
      responses_on 3 s'.trace = [] := by
  refine ⟨by decide, ?_⟩
  obtain ⟨s', entry', _, hret, hget, hdone, _, _, _, hmul, _, _, hresp⟩ :=
    compute_service_sends_no_response 32 freed_block mul_request worker_state0 (Or.inr rfl)
      (by decide) (by decide)
  exact ⟨s', entry', hret, hget, hdone, hmul rfl, by rw [hresp 3]; rfl⟩

/-! ## The threads of the server -/

theorem advance_some (c : Nat) (src dst : DispatcherPc) (s s' : Server)
    (h : advance c src dst s = some s') :
    s.dispatchers[c]? = some src ∧
      s' = { s with dispatchers := s.dispatchers.set c dst } := by
  unfold advance at h
  split at h
  · rename_i hsrc
    exact ⟨hsrc, by simpa using h.symm⟩
  · cases h

theorem step_spawn_some (c : Nat) (s s' : Server) (h : step (Action.spawn c) s = some s') :
    ∃ req, s.dispatchers[c]? = some (DispatcherPc.spawn_wait req) ∧
      s.threads.curr < MAX_THREADS ∧
      s' = { threads := { curr := s.threads.curr + 1 }
             workers := s.workers ++ [{ req := req, client := c }]
             dispatchers := s.dispatchers.set c DispatcherPc.receiving } := by
  simp only [step] at h
  split at h
  · rename_i req hpc
    refine ⟨req, hpc, ?_⟩
    unfold spawn_compute_thread at h
    by_cases hfull : s.threads.curr ≥ MAX_THREADS
    · simp [hfull] at h
    · simp only [hfull, if_false, Option.some.injEq] at h
      exact ⟨by omega, h.symm⟩
  · cases h

theorem resizing_set (s : Server) (c c' : Nat) (dst : DispatcherPc)
    (h : resizing { s with dispatchers := s.dispatchers.set c' dst } c) :
    (c' = c ∧ (dst = DispatcherPc.resize_copy ∨ dst = DispatcherPc.resize_notify ∨
      dst = DispatcherPc.resize_switch)) ∨ resizing s c := by
  unfold resizing at h ⊢
  simp only [List.getElem?_set] at h
  by_cases hc : c' = c
  · subst hc
    left
    refine ⟨rfl, ?_⟩
    by_cases hlt : c' < s.dispatchers.length
    · simpa [hlt] using h
    · simp [hlt] at h
  · right
    simpa [hc] using h

theorem resizing_append (s : Server) (c : Nat)
    (h : resizing { s with dispatchers := s.dispatchers ++ [DispatcherPc.receiving] } c) :
    resizing s c := by
  unfold resizing at h ⊢
  by_cases hlt : c < s.dispatchers.length
  · simpa [List.getElem?_append_left hlt] using h
  · have hle : s.dispatchers.length ≤ c := Nat.le_of_not_lt hlt
    simp only [List.getElem?_append_right hle] at h
    rcases Nat.eq_zero_or_pos (c - s.dispatchers.length) with h0 | hpos
    · simp [h0] at h
    · have : [DispatcherPc.receiving][c - s.dispatchers.length]? = none := by
        apply List.getElem?_eq_none
        simp only [List.length_singleton]
        omega
      simp [this] at h

theorem server_inv_advance (c : Nat) (src dst : DispatcherPc) (s s' : Server)
    (hinv : server_inv s) (h : advance c src dst s = some s')
    (hdst : (dst = DispatcherPc.resize_copy ∨ dst = DispatcherPc.resize_notify ∨
      dst = DispatcherPc.resize_switch) → ∀ t ∈ s.workers, t.client ≠ c) :
    server_inv s' := by
  obtain ⟨_, rfl⟩ := advance_some c src dst s s' h
  obtain ⟨hcurr, hmax, hres⟩ := hinv
  refine ⟨hcurr, hmax, ?_⟩
  intro c0 hc0 t ht
  rcases resizing_set s c0 c dst hc0 with ⟨rfl, hd⟩ | hold
  · exact hdst hd t ht
  · exact hres c0 hold t ht

theorem server_inv_init : server_inv init_server := by
  refine ⟨rfl, by decide, ?_⟩
  intro c _ t ht
  cases ht

theorem server_inv_step (a : Action) (s s' : Server) (hinv : server_inv s)
    (h : step a s = some s') : server_inv s' := by
  cases a with
  | register =>
      simp only [step, Option.some.injEq] at h
      subst h
      exact ⟨hinv.1, hinv.2.1, fun c hc t ht => hinv.2.2 c (resizing_append s c hc) t ht⟩
  | receive c req =>
      simp only [step] at h
      refine server_inv_advance c _ _ s s' hinv h ?_
      intro hd
      split at hd <;> simp at hd
  | spawn c =>
      obtain ⟨req, hpc, hlt, rfl⟩ := step_spawn_some c s s' h
      obtain ⟨hcurr, hmax, hres⟩ := hinv
      refine ⟨?_, ?_, ?_⟩
      · simp [hcurr]
      · simp only
        omega
      · intro c0 hc0 t ht
        have hc0' := resizing_set s c0 c DispatcherPc.receiving hc0
        rcases hc0' with ⟨_, hd⟩ | hold
        · simp at hd
        · simp only [List.mem_append, List.mem_singleton] at ht
          rcases ht with ht | rfl
          · exact hres c0 hold t ht
          · simp only
            intro hcc
            subst hcc
            unfold resizing at hold
            rw [hpc] at hold
            simp at hold
  | complete i =>
      simp only [step] at h
      split at h
      · rename_i hi
        simp only [Option.some.injEq] at h
        subst h
        obtain ⟨hcurr, hmax, hres⟩ := hinv
        refine ⟨?_, ?_, ?_⟩
        · simp only [cleanup_compute_thread, List.length_eraseIdx, hi, if_true]
          omega
        · simp only [cleanup_compute_thread]
          omega
        · intro c0 hc0 t ht
          exact hres c0 hc0 t (List.mem_of_mem_eraseIdx ht)
      · cases h
  | resize_observe c =>
      simp only [step] at h
      unfold resize_wait at h
      by_cases hz : s.threads.curr ≠ 0
      · simp [hz] at h
      · simp only [hz, if_false] at h
        refine server_inv_advance c _ _ s s' hinv h ?_
        intro _ t ht
        have hlen : s.workers.length = 0 := by
          have := hinv.1
          have hz' : s.threads.curr = 0 := by simpa using hz
          omega
        have : s.workers = [] := List.length_eq_zero.mp hlen
        rw [this] at ht
        cases ht
  | resize_memcpy c =>
      simp only [step] at h
      have hpc := (advance_some _ _ _ _ _ h).1
      exact server_inv_advance c _ _ s s' hinv h
        (fun _ => hinv.2.2 c (Or.inl hpc))
  | resize_send c =>
      simp only [step] at h
      have hpc := (advance_some _ _ _ _ _ h).1
      exact server_inv_advance c _ _ s s' hinv h
        (fun _ => hinv.2.2 c (Or.inr (Or.inl hpc)))
  | resize_refs c =>
      simp only [step] at h
      refine server_inv_advance c _ _ s s' hinv h ?_
      intro hd
      simp at hd
  | stop c =>
      simp only [step] at h
      refine server_inv_advance c _ _ s s' hinv h ?_
      intro hd
      simp at hd

theorem server_inv_run (acts : List Action) (s s' : Server) (hinv : server_inv s)
    (h : run acts s = some s') : server_inv s' := by
  induction acts generalizing s with
  | nil =>
      simp only [run, Option.some.injEq] at h
      subst h
      exact hinv
  | cons a rest ih =>
      simp only [run] at h
      cases hstep : step a s with
      | none => simp [hstep] at h
      | some s1 =>
          rw [hstep] at h
          exact ih s1 (server_inv_step a s s1 hinv hstep) h

theorem step_enters_copy (a : Action) (s s' : Server) (c : Nat)
    (h : step a s = some s')
    (hafter : s'.dispatchers[c]? = some DispatcherPc.resize_copy)
    (hbefore : s.dispatchers[c]? ≠ some DispatcherPc.resize_copy) :
    a = Action.resize_observe c ∧ s.threads.curr = 0 := by
  have key : ∀ (c' : Nat) (src dst : DispatcherPc), advance c' src dst s = some s' →
      c' = c ∧ dst = DispatcherPc.resize_copy := by
    intro c' src dst hadv
    obtain ⟨_, rfl⟩ := advance_some c' src dst s s' hadv
    simp only [List.getElem?_set] at hafter
    by_cases hc : c' = c
    · subst hc
      by_cases hlt : c' < s.dispatchers.length
      · simp only [hlt, if_true, Option.some.injEq] at hafter
        exact ⟨rfl, hafter⟩
      · simp [hlt] at hafter
    · simp only [hc, if_false] at hafter
      exact absurd hafter hbefore
  cases a with
  | register =>
      simp only [step, Option.some.injEq] at h
      subst h
      exfalso
      apply hbefore
      have hres := resizing_append s c (Or.inl hafter)
      by_cases hlt : c < s.dispatchers.length
      · simpa [List.getElem?_append_left hlt] using hafter
      · have hle : s.dispatchers.length ≤ c := Nat.le_of_not_lt hlt
        have hnone : s.dispatchers[c]? = none := List.getElem?_eq_none hle
        unfold resizing at hres
        simp [hnone] at hres
  | receive c' req =>
      simp only [step] at h
      have := (key _ _ _ h).2
      split at this <;> simp at this
  | spawn c' =>
      obtain ⟨req, _, _, rfl⟩ := step_spawn_some c' s s' h
      simp only [List.getElem?_set] at hafter
      by_cases hc : c' = c
      · subst hc
        by_cases hlt : c' < s.dispatchers.length
        · simp [hlt] at hafter
        · simp [hlt] at hafter
      · simp only [hc, if_false] at hafter
        exact absurd hafter hbefore
  | complete i =>
      simp only [step] at h
      split at h
      · simp only [Option.some.injEq] at h
        subst h
        exact absurd hafter hbefore
      · cases h
  | resize_observe c' =>
      simp only [step] at h
      unfold resize_wait at h
      by_cases hz : s.threads.curr ≠ 0
      · simp [hz] at h
      · simp only [hz, if_false] at h
        obtain ⟨rfl, _⟩ := key _ _ _ h
        exact ⟨rfl, by simpa using hz⟩
  | resize_memcpy c' =>
      simp only [step] at h
      have := (key _ _ _ h).2
      simp at this
  | resize_send c' =>
      simp only [step] at h
      have := (key _ _ _ h).2
      simp at this
  | resize_refs c' =>
      simp only [step] at h
      have := (key _ _ _ h).2
      simp at this
  | stop c' =>
      simp only [step] at h
      have := (key _ _ _ h).2
      simp at this

/-- C5: in every state reached from `init_server` by moves of the threads
(worker submissions and completions among them) the worker active count is
the number of live workers and stays between 0 and `MAX_THREADS`, which is
100; a submission is taken only when the count is below `MAX_THREADS` and
adds one to it, and a completion takes one from it. -/
theorem worker_count_bounded (acts : List Action) (s : Server)
    (hrun : run acts init_server = some s) :
    0 ≤ s.threads.curr ∧ s.threads.curr ≤ MAX_THREADS ∧ MAX_THREADS = 100 ∧
    s.threads.curr = s.workers.length ∧
    (∀ c s', step (Action.spawn c) s = some s' →
      s.threads.curr < MAX_THREADS ∧ s'.threads.curr = s.threads.curr + 1) ∧
    (∀ i s', step (Action.complete i) s = some s' →
      s'.threads.curr = s.threads.curr - 1) := by
  have hinv := server_inv_run acts init_server s server_inv_init hrun
  obtain ⟨hcurr, hmax, _⟩ := hinv
  refine ⟨by omega, hmax, rfl, hcurr, ?_, ?_⟩
  · intro c s' h
    obtain ⟨_, _, hlt, rfl⟩ := step_spawn_some c s s' h
    exact ⟨hlt, rfl⟩
  · intro i s' h
    simp only [step] at h
    split at h
    · simp only [Option.some.injEq] at h
      subst h
      rfl
    · cases h

/-- Witness of C5: after two submissions and one completion the count is 1. -/
theorem worker_count_bounded_witness :
    run submit_run init_server = some submit_state ∧
    0 ≤ submit_state.threads.curr ∧ submit_state.threads.curr ≤ 100 :=
  ⟨by decide,
    (worker_count_bounded submit_run submit_state (by decide)).1,
    (worker_count_bounded submit_run submit_state (by decide)).2.1⟩

/-- C9: in every state reached from `init_server` by moves of the threads,
for every client: while its dispatcher copies, notifies or switches inside
`resize_shm_object` no live worker serves that client; the copy and the
switch are enabled only in such a state; a dispatcher comes to the copy only
by leaving the wait loop, which it does only when the worker active count is
zero; and while it is inside `resize_shm_object` it neither receives a
request nor starts a worker. -/
theorem resize_excludes_workers (acts : List Action) (s : Server)
    (hrun : run acts init_server = some s) (c : Nat) :
    (resizing s c → ∀ t ∈ s.workers, t.client ≠ c) ∧
    (∀ s', step (Action.resize_memcpy c) s = some s' → ∀ t ∈ s.workers, t.client ≠ c) ∧
    (∀ s', step (Action.resize_refs c) s = some s' → ∀ t ∈ s.workers, t.client ≠ c) ∧
    (∀ a s', step a s = some s' →
      s'.dispatchers[c]? = some DispatcherPc.resize_copy →
      s.dispatchers[c]? ≠ some DispatcherPc.resize_copy →
      a = Action.resize_observe c ∧ s.threads.curr = 0 ∧ s.workers = []) ∧
    (in_resize s c →
      step (Action.spawn c) s = none ∧ ∀ req, step (Action.receive c req) s = none) := by
  have hinv := server_inv_run acts init_server s server_inv_init hrun
  refine ⟨hinv.2.2 c, ?_, ?_, ?_, ?_⟩
  · intro s' h
    simp only [step] at h
    exact hinv.2.2 c (Or.inl (advance_some _ _ _ _ _ h).1)
  · intro s' h
    simp only [step] at h
    exact hinv.2.2 c (Or.inr (Or.inr (advance_some _ _ _ _ _ h).1))
  · intro a s' h hafter hbefore
    obtain ⟨ha, hz⟩ := step_enters_copy a s s' c h hafter hbefore
    refine ⟨ha, hz, ?_⟩
    apply List.length_eq_zero.mp
    have := hinv.1
    omega
  · intro hin
    have hpc : ∃ pc, s.dispatchers[c]? = some pc ∧ pc ≠ DispatcherPc.receiving ∧
        ∀ req, pc ≠ DispatcherPc.spawn_wait req := by
      rcases hin with h | h | h | h <;> exact ⟨_, h, by simp, by simp⟩
    obtain ⟨pc, hpc, hne1, hne2⟩ := hpc
    constructor
    · simp only [step, hpc]
      split
      · rename_i req heq
        simp only [Option.some.injEq] at heq
        exact absurd heq (hne2 req)
      · rfl
    · intro req
      simp only [step, advance, hpc, Option.some.injEq]
      simp [hne1]

/-- Witness of C9: dispatcher 0 left the wait loop with no live worker and
copied; the worker that started meanwhile serves client 1. -/
theorem resize_excludes_workers_witness :
    run resize_run init_server = some resize_state ∧
    resizing resize_state 0 ∧
    ∀ t ∈ resize_state.workers, t.client ≠ 0 :=
  ⟨by decide, Or.inr (Or.inl (by decide)),
    (resize_excludes_workers resize_run resize_state (by decide) 0).1
      (Or.inr (Or.inl (by decide)))⟩

/-! ## Resize -/

theorem memcpy_outside (mem : Nat → Nat) (dst src n a : Nat)
    (h : a < dst ∨ dst + n ≤ a) : memcpy mem dst src n a = mem a := by
  induction n with
  | zero => rfl
  | succ k ih =>
      simp only [memcpy]
      have hne : a ≠ dst + k := by omega
      simp only [hne, if_false]
      exact ih (by omega)

theorem memcpy_copies (mem : Nat → Nat) (dst src n : Nat)
    (hdisj : src + n ≤ dst ∨ dst + n ≤ src) (i : Nat) (hi : i < n) :
    memcpy mem dst src n (dst + i) = mem (src + i) := by
  induction n with
  | zero => omega
  | succ k ih =>
      simp only [memcpy]
      by_cases hik : i = k
      · subst hik
        simp only [if_true]
        exact memcpy_outside mem dst src i (src + i) (by omega)
      · have hne : dst + i ≠ dst + k := by omega
        simp only [hne, if_false]
        exact ih (by omega) (by omega)

/-- C6: for every client whose object was enlarged to a size not smaller
than the old one, mapped at a range apart from the old region, once no
worker is active `resize_shm_object` returns; the client record then holds
the address and the size of the new mapping, the first old-size bytes of the
new region, which lie inside it, equal byte for byte the old region as it
was, and the old region is as it was. -/
theorem resize_shm_object_copies (env : ResizeEnv) (s : ResizeState)
    (hopen : env.shm_open_fd ≠ -1)
    (hquiet : s.threads.curr = 0)
    (hsize : s.client.shm_size ≤ env.st_size)
    (hdisj : s.client.shm_addr + s.client.shm_size ≤ env.mmap_addr ∨
      env.mmap_addr + env.st_size ≤ s.client.shm_addr) :
    ∃ s', resize_shm_object env s = Outcome.ret s' ∧
      s'.client.shm_addr = env.mmap_addr ∧
      s'.client.shm_size = env.st_size ∧
      s.client.shm_size ≤ s'.client.shm_size ∧
      (∀ i, i < s.client.shm_size →
        s'.mem (s'.client.shm_addr + i) = s.mem (s.client.shm_addr + i)) ∧
      (∀ i, i < s.client.shm_size →
        s'.mem (s.client.shm_addr + i) = s.mem (s.client.shm_addr + i)) ∧
      s'.client.pid = s.client.pid ∧
      s'.client.send_queue = s.client.send_queue ∧
      s'.client.recv_queue = s.client.recv_queue := by
  refine ⟨{ client := { s.client with shm_addr := env.mmap_addr, shm_size := env.st_size }
            mem := memcpy s.mem env.mmap_addr s.client.shm_addr s.client.shm_size
            threads := s.threads
            trace := s.trace ++
              [Event.mq_send_response s.client.send_queue
                { env.resp_local with request_id := -1 },
               Event.close env.shm_open_fd] }, ?_, rfl, rfl, hsize, ?_, ?_, rfl, rfl, rfl⟩
  · simp [resize_shm_object, hopen, resize_wait, hquiet, Outcome.bind]
  · intro i hi
    exact memcpy_copies s.mem env.mmap_addr s.client.shm_addr s.client.shm_size
      (by omega) i hi
  · intro i hi
    exact memcpy_outside s.mem env.mmap_addr s.client.shm_addr s.client.shm_size _
      (by omega)

/-- Witness of C6: the segment of 128 bytes at 4096 enlarged to 256 bytes
and mapped at 8192; byte 5 of the new region is byte 5 of the old one. -/
theorem resize_shm_object_copies_witness :
    resize_env0.shm_open_fd ≠ -1 ∧ resize_state0.threads.curr = 0 ∧
    resize_state0.client.shm_size ≤ resize_env0.st_size ∧
    ∃ s', resize_shm_object resize_env0 resize_state0 = Outcome.ret s' ∧
      s'.client.shm_addr = 8192 ∧ s'.client.shm_size = 256 ∧
      s'.mem (8192 + 5) = resize_state0.mem (4096 + 5) := by
  refine ⟨by decide, by decide, by decide, ?_⟩
  obtain ⟨s', hret, haddr, hsz, _, hcopy, _⟩ :=
    resize_shm_object_copies resize_env0 resize_state0 (by decide) (by decide) (by decide)
      (Or.inl (by decide))
  refine ⟨s', hret, haddr, hsz, ?_⟩
  have h5 := hcopy 5 (by decide)
  rw [haddr] at h5
  exact h5

/-! ## Registration failures -/

theorem client_handler_deadline_past (now : timespec) (hvalid : timespec_valid now)
    (hsec : 1 ≤ now.tv_sec) :
    timespec_ns (client_handler_deadline now) < timespec_ns now := by
  obtain ⟨h0, h1⟩ := hvalid
  simp only [client_handler_deadline, timespec_ns]
  omega

/-- C10, at a failing input: for the valid time (1700000000 s, 995000000 ns)
the deadline of `client_handler` is (0 s, 1005000000 ns): its `tv_nsec` is
not below 1000000000, and it is not the time 10 ms after the current one. -/
theorem client_handler_deadline_invalid :
    timespec_valid clock_now ∧
    client_handler_deadline clock_now = { tv_sec := 0, tv_nsec := 1005000000 } ∧
    ¬ timespec_valid (client_handler_deadline clock_now) ∧
    timespec_ns (client_handler_deadline clock_now) ≠ timespec_ns clock_now + 10000000 :=
  ⟨by decide, by decide, by decide, by decide⟩

/-! ## The list of clients -/

theorem bind_ret {α β : Type} (o : Outcome α) (f : α → Outcome β) (b : β)
    (h : o.bind f = Outcome.ret b) : ∃ a, o = Outcome.ret a ∧ f a = Outcome.ret b := by
  cases o with
  | ret a => exact ⟨a, rfl, h⟩
  | exited c => cases h
  | blocked => cases h
  | fault => cases h
  | nofuel => cases h

theorem load_ret (heap : Nat → Option client_list) (a : Nat) (n : client_list)
    (h : load heap a = Outcome.ret n) : heap a = some n := by
  unfold load at h
  cases hh : heap a with
  | none => simp [hh] at h
  | some m =>
      simp only [hh, Outcome.ret.injEq] at h
      rw [h]

theorem load_of_some (heap : Nat → Option client_list) (a : Nat) (n : client_list)
    (h : heap a = some n) : load heap a = Outcome.ret n := by
  simp [load, h]

/-- Writing a node back with the `client` field it had keeps the `client`
field at every address. -/
theorem store_same_client (heap : Nat → Option client_list) (a : Nat) (n m : client_list)
    (hn : heap a = some n) (hm : m.client = n.client) (x : Nat) :
    (store heap a m x).map (fun k => k.client) = (heap x).map (fun k => k.client) := by
  unfold store
  by_cases hx : x = a
  · subst hx
    simp [hn, hm]
  · simp [hx]

/-- `append_client` writes link fields only: the `client` field at every
address is as before. -/
theorem append_client_client_fields (a : Nat) (s s' : RegistryState)
    (h : append_client a s = Outcome.ret s') (x : Nat) :
    (s'.heap x).map (fun k => k.client) = (s.heap x).map (fun k => k.client) := by
  unfold append_client at h
  cases hc : s.clients with
  | none =>
      simp only [hc] at h
      obtain ⟨n, hn, h⟩ := bind_ret _ _ _ h
      cases h
      exact store_same_client s.heap a n { n with tail := some a } (load_ret _ _ _ hn) rfl x
  | some hd =>
      simp only [hc] at h
      obtain ⟨hnode, _, h⟩ := bind_ret _ _ _ h
      obtain ⟨n, hn, h⟩ := bind_ret _ _ _ h
      cases ht : hnode.tail with
      | none => simp [ht] at h
      | some t =>
          simp only [ht] at h
          obtain ⟨tn, htn, h⟩ := bind_ret _ _ _ h
          obtain ⟨hn2, hhn2, h⟩ := bind_ret _ _ _ h
          cases h
          have e1 := store_same_client s.heap a n
            { n with prev := some t, next := none, tail := some a } (load_ret _ _ _ hn) rfl x
          have e2 := store_same_client _ t tn { tn with next := some a } (load_ret _ _ _ htn) rfl x
          have e3 := store_same_client _ hd hn2 { hn2 with tail := some a }
            (load_ret _ _ _ hhn2) rfl x
          exact e3.trans (e2.trans e1)

/-- For every REGISTER record and every list: when `register_client`
returns, the node it allocated carries the pid of the record and the stop
flag the local `client` held before any assignment; `register_client`
never writes that flag in the node. -/
theorem register_client_stop_flag_unwritten (env : RegisterEnv) (reg : gtipc_registry)
    (s s' : RegistryState) (h : register_client env reg s = Outcome.ret s') :
    (s'.heap env.malloc_addr).map (fun k => k.client.pid) = some reg.pid ∧
    (s'.heap env.malloc_addr).map (fun k => k.client.stop_client_thread) =
      some env.local_client.stop_client_thread := by
  unfold register_client at h
  simp only at h
  split at h
  · cases h
  · obtain ⟨r, hr, h⟩ := bind_ret _ _ _ h
    obtain ⟨s2, hs2, h⟩ := bind_ret _ _ _ h
    cases h
    have hcl := append_client_client_fields _ _ _ hs2 env.malloc_addr
    simp only [store, if_true, Option.map_some'] at hcl
    unfold open_shm_object at hr
    split at hr
    · cases hr
    · cases hr
      simp only at hcl
      cases hnode : s2.heap env.malloc_addr with
      | none => simp [hnode] at hcl
      | some k =>
          simp only [hnode, Option.map_some', Option.some.injEq] at hcl
          simp [hcl]

/-- For every list whose node `a` has no predecessor and has a successor
(the first of several clients): `remove_client` returns with the global
`clients` as it was. -/
theorem remove_client_first_keeps_head (s : RegistryState) (a nx : Nat) (n nn : client_list)
    (hn : s.heap a = some n) (hprev : n.prev = none) (hnext : n.next = some nx)
    (hnn : s.heap nx = some nn) :
    remove_client (some a) s =
      Outcome.ret { s with heap := store s.heap nx { nn with prev := none } } := by
  simp [remove_client, load, hn, hprev, hnext, hnn, Outcome.bind]

/-- For every list whose first node carries `pid` and has a successor:
`unregister_client(pid, 0)` returns with the global `clients` still at the
node it freed, and `find_client` then reads freed memory whatever the pid
asked for. -/
theorem unregister_first_leaves_dangling_head (fuel : Nat) (status : Int) (pid : Int)
    (s : RegistryState) (a nx : Nat) (n nn : client_list)
    (hhead : s.clients = some a) (hn : s.heap a = some n) (hpid : n.client.pid = pid)
    (hprev : n.prev = none) (hnext : n.next = some nx) (hnn : s.heap nx = some nn) :
    ∃ s', unregister_client (fuel + 1) status pid 0 s = Outcome.ret s' ∧
      s'.clients = some a ∧ s'.heap a = none ∧
      ∀ fuel' pid', find_client (fuel' + 1) pid' s' = Outcome.fault := by
  have hfind : find_client (fuel + 1) pid s = Outcome.ret (some a) := by
    simp [find_client, find_client_loop, hhead, load, hn, hpid, Outcome.bind]
  have hrem := remove_client_first_keeps_head { s with trace := s.trace ++ [] } a nx n nn
    hn hprev hnext hnn
  have hsome : ∃ n2, store s.heap nx { nn with prev := none } a = some n2 := by
    unfold store
    by_cases hx : a = nx
    · exact ⟨{ nn with prev := none }, by simp [hx]⟩
    · exact ⟨n, by simp [hx, hn]⟩
  obtain ⟨n2, hn2⟩ := hsome
  have hun : unregister_client (fuel + 1) status pid 0 s = Outcome.ret
      { clients := s.clients
        heap := release (store (store s.heap nx { nn with prev := none }) a
          { n2 with client := { n2.client with stop_client_thread := 1 } }) a
        trace := s.trace ++ [] ++
          [Event.mq_close n2.client.send_queue, Event.mq_close n2.client.recv_queue,
           Event.munmap n2.client.shm_addr n2.client.shm_size] } := by
    unfold unregister_client
    rw [hfind]
    simp only [Outcome.bind, load, hn, ne_eq, not_true_eq_false, if_false]
    rw [hrem]
    simp only [hn2]
  refine ⟨_, hun, hhead, ?_, ?_⟩
  · simp [release]
  · intro fuel' pid'
    simp [find_client, find_client_loop, hhead, load, release, Outcome.bind]

/-- On the list of clients 1, 2, 3: unregistering the middle one or the last
one leaves the others, in order, and unregistering the only client of a list
empties it. -/
theorem unregister_middle_last_only :
    (∃ s3 s', registry_three = Outcome.ret s3 ∧
      pids_from s3.heap 8 s3.clients = Outcome.ret [1, 2, 3] ∧
      unregister_client 8 0 2 0 s3 = Outcome.ret s' ∧
      pids_from s'.heap 8 s'.clients = Outcome.ret [1, 3] ∧
      find_client 8 2 s' = Outcome.ret none) ∧
    (∃ s3 s', registry_three = Outcome.ret s3 ∧
      unregister_client 8 0 3 0 s3 = Outcome.ret s' ∧
      pids_from s'.heap 8 s'.clients = Outcome.ret [1, 2] ∧
      find_client 8 3 s' = Outcome.ret none) ∧
    (∃ s1 s', register_client (register_env 100) (register_record 1) registry_empty =
        Outcome.ret s1 ∧
      unregister_client 8 0 1 0 s1 = Outcome.ret s' ∧
      s'.clients = none ∧
      find_client 8 1 s' = Outcome.ret none) :=
  ⟨⟨_, _, rfl, rfl, rfl, rfl, rfl⟩, ⟨_, _, rfl, rfl, rfl, rfl⟩, ⟨_, _, rfl, rfl, rfl, rfl⟩⟩

/-- C3, at a failing input: clients 1 and 2 are registered in this order
(both are found, in this order); after `unregister_client(1, 0)`, the first
one, the global head still holds the address of the freed node of client 1,
so `find_client` reads freed memory for pid 1 and for pid 2 alike: client 1
is not reported absent and client 2 is no longer found. -/
theorem unregister_head_leaves_dangling_head :
    ∃ s2 s3, registry_two = Outcome.ret s2 ∧
      pids_from s2.heap 8 s2.clients = Outcome.ret [1, 2] ∧
      find_client 8 1 s2 = Outcome.ret (some 100) ∧
      find_client 8 2 s2 = Outcome.ret (some 200) ∧
      unregister_client 8 0 1 0 s2 = Outcome.ret s3 ∧
      s3.clients = some 100 ∧
      s3.heap 100 = none ∧
      find_client 8 1 s3 = Outcome.fault ∧
      find_client 8 2 s3 = Outcome.fault :=
  ⟨_, _, rfl, rfl, rfl, rfl, rfl, rfl, rfl, rfl, rfl⟩

/-- C4, at a failing input: a REGISTER record for pid 1 on the empty list,
every call succeeding, where the block `malloc` returns holds a stale `next`
and the local `client` a stale stop flag 1: the new node is the head and
carries pid 1, its stop flag is 1, not 0, and the traversal from the global
head does not end at it but follows the stale `next` into memory that is
not a node. -/
theorem register_client_leaves_stale_fields :
    ∃ s', register_client register_env_stale (register_record 1) registry_empty =
        Outcome.ret s' ∧
      s'.clients = some 100 ∧
      (s'.heap 100).map (fun n => n.client.pid) = some 1 ∧
      (s'.heap 100).map (fun n => n.client.stop_client_thread) = some 1 ∧
      (s'.heap 100).map (fun n => n.next) = some (some 999) ∧
      pids_from s'.heap 8 s'.clients = Outcome.fault :=
  ⟨_, rfl, rfl, rfl, rfl, rfl, rfl⟩

end Gtipc
